import Mathlib

/-!
Verification of the conversational sales-agent backend
(`apps/backend/src/services/*.py`) against its natural-language
specification.  Python functions are embedded shallowly: machine-level
`float` arithmetic in the scoring path is modelled over `ℚ` with Python's
banker's rounding (`round`), Python truthiness on optional values is made
explicit, Redis lists are Lean lists, and external collaborators
(calendar, e-mail, Slack, the JSON parser) are oracle parameters.
-/

set_option maxHeartbeats 1000000

namespace AxAgent

/-! ## Scoring Engine — `services/scoring_service.py` -/

/-- Model of Python's built-in `round` on a real value: round half to even
(banker's rounding), as used by `scoring_service.py` lines 37 and 74. -/
def pyRound (q : ℚ) : ℤ :=
  if q - (⌊q⌋ : ℚ) < 1/2 then ⌊q⌋
  else if (1/2 : ℚ) < q - (⌊q⌋ : ℚ) then ⌊q⌋ + 1
  else if ⌊q⌋ % 2 = 0 then ⌊q⌋ else ⌊q⌋ + 1

/-- Embedding of `score_lead` (`scoring_service.py` lines 16–74).
`budget_max` is clamped to `[0, 20000]`, normalised to a 0–100 scale and
rounded; timeline and authority are bucket lookups; clarity is clamped;
the final score is the rounded weighted sum `0.40/0.20/0.20/0.20`.
The Python guard `authority.lower() if authority else "unknown"` maps the
empty (falsy) string to `"unknown"`; `dict.get(…, 40)` defaults to 40. -/
def score_lead (budget_max timeline_days : ℤ) (authority : String)
    (clarity_score : ℤ) : ℤ :=
  let budget_normalized : ℤ := min (max budget_max 0) 20000
  let budget_score : ℤ := pyRound ((budget_normalized : ℚ) / 20000 * 100)
  let timeline_score : ℤ :=
    if timeline_days ≤ 30 then 100
    else if timeline_days ≤ 60 then 85
    else if timeline_days ≤ 90 then 70
    else if timeline_days ≤ 180 then 50
    else 30
  let authority_key : String :=
    if authority = "" then "unknown" else authority.toLower
  let authority_score : ℤ :=
    if authority_key = "dm" then 100
    else if authority_key = "influencer" then 70
    else if authority_key = "unknown" then 40
    else if authority_key = "no" then 10
    else 40
  let clarity_normalized : ℤ := max 0 (min 100 clarity_score)
  pyRound ((0.40 : ℚ) * budget_score + (0.20 : ℚ) * timeline_score
    + (0.20 : ℚ) * authority_score + (0.20 : ℚ) * clarity_normalized)

/-- Embedding of `status_from_score` (`scoring_service.py` lines 77–92). -/
def status_from_score (score : ℤ) : String :=
  if 80 ≤ score then "hot"
  else if 50 ≤ score then "warm"
  else "cold"

/-- Spec-amended budget term: the linear (not bucketed) normalisation of
`budget_max` that the source actually computes, written independently of
`score_lead` for the refinement theorem of claim C2:
clamp to `[0, 20000]`, then scale by `1/200` and round. -/
def budget_points (budget_max : ℤ) : ℤ :=
  pyRound ((min (max budget_max 0) 20000 : ℤ) / (200 : ℚ))

/-- The budget component exactly as `score_lead` computes it
(`scoring_service.py` lines 36–37), named so the weighted sum can be
decomposed in proofs. -/
def budget_score_src (budget_max : ℤ) : ℤ :=
  pyRound (((min (max budget_max 0) 20000 : ℤ) : ℚ) / 20000 * 100)

/-- The timeline bucket lookup of `score_lead` (lines 41–50). -/
def timeline_points (timeline_days : ℤ) : ℤ :=
  if timeline_days ≤ 30 then 100
  else if timeline_days ≤ 60 then 85
  else if timeline_days ≤ 90 then 70
  else if timeline_days ≤ 180 then 50
  else 30

/-- The authority lookup of `score_lead` (lines 54–60), including the
falsy-string guard and the `dict.get` default of 40. -/
def authority_points (authority : String) : ℤ :=
  let authority_key : String :=
    if authority = "" then "unknown" else authority.toLower
  if authority_key = "dm" then 100
  else if authority_key = "influencer" then 70
  else if authority_key = "unknown" then 40
  else if authority_key = "no" then 10
  else 40

/-- Clarity clamped into `[0, 100]` (line 64). -/
def clarity_clamped (clarity_score : ℤ) : ℤ :=
  max 0 (min 100 clarity_score)

/-- The three non-budget weighted terms of the final score (lines 69–71). -/
def rest_terms (timeline_days : ℤ) (authority : String)
    (clarity_score : ℤ) : ℚ :=
  (0.20 : ℚ) * timeline_points timeline_days
    + (0.20 : ℚ) * authority_points authority
    + (0.20 : ℚ) * clarity_clamped clarity_score

/-! ## Session Store — `services/state_service.py`

The per-visitor Redis list is modelled as a Lean list plus the key's
remaining TTL; `RPUSH` is append at the tail, `EXPIRE` resets the TTL. -/

/-- A conversation turn as stored in the cache (`{"role": …, "content": …}`). -/
structure Turn where
  role : String
  content : String
deriving DecidableEq, Repr

/-- Redis key TTL constant (`state_service.py` line 13). -/
def HISTORY_TTL : Nat := 86400

/-- The cached history list for one visitor key together with its TTL. -/
structure CacheEntry where
  msgs : List Turn
  ttl : Nat
deriving DecidableEq, Repr

/-- Cache half of `push_message` (`state_service.py` lines 49–54):
`RPUSH` the serialised turn to the tail, then `EXPIRE` the key.  The
function performs no trim of any kind. -/
def push_message_cache (c : CacheEntry) (role content : String) : CacheEntry :=
  { msgs := c.msgs ++ [⟨role, content⟩], ttl := HISTORY_TTL }

/-- Embedding of `trim_history` (`state_service.py` lines 152–176): when
the list is longer than `max_messages` it runs
`LTRIM key -max_messages -1`, keeping the last `max_messages` entries.
Redis parses the start index `-0` as `0` (the head), so with
`max_messages = 0` the whole list survives. -/
def trim_history_cache (max_messages : Nat) (c : CacheEntry) : CacheEntry :=
  if c.msgs.length > max_messages then
    { c with msgs :=
        if max_messages = 0 then c.msgs
        else c.msgs.drop (c.msgs.length - max_messages) }
  else c

/-! ## Tool Dispatcher: `save_lead` — `services/tools_service.py`

Python truthiness on optional tool arguments is made explicit: `None`,
`""` and `0` are falsy; `x or y` returns `y` exactly when `x` is falsy. -/

/-- Python truthiness of an optional string (`None` and `""` are falsy). -/
def pyTruthyS (o : Option String) : Bool := o.getD "" != ""

/-- Python truthiness of an optional integer (`None` and `0` are falsy). -/
def pyTruthyI (o : Option ℤ) : Bool := o.getD 0 != 0

/-- Python `new or old` on optional strings. -/
def pyOrS (new old : Option String) : Option String :=
  if pyTruthyS new then new else old

/-- Python `new or old` on optional integers. -/
def pyOrI (new old : Option ℤ) : Option ℤ :=
  if pyTruthyI new then new else old

/-- A row of the `leads` table (`models/lead.py`); the UUID primary key is
modelled by a natural-number token, and `status` carries the column
default `"new"` until first scoring. -/
structure LeadRec where
  id : Nat
  email : String
  name : Option String := none
  company : Option String := none
  budget_min : Option ℤ := none
  budget_max : Option ℤ := none
  timeline : Option String := none
  authority : Option String := none
  project_summary : Option String := none
  score : Option ℤ := none
  status : String := "new"
deriving DecidableEq, Repr

/-- The parsed argument mapping passed to `save_lead`; a field that the
model did not provide is `none`. -/
structure SaveArgs where
  name : Option String := none
  email : Option String := none
  company : Option String := none
  budget_min : Option ℤ := none
  budget_max : Option ℤ := none
  timeline : Option String := none
  authority : Option String := none
  project_summary : Option String := none
  score : Option ℤ := none
  status : Option String := none
deriving DecidableEq, Repr

/-- The non-destructive field merge of `save_lead`
(`tools_service.py` lines 196–202): each assignment is
`lead.f = args.get("f") or lead.f`. -/
def merge_lead_fields (lead : LeadRec) (args : SaveArgs) : LeadRec :=
  { lead with
    name := pyOrS args.name lead.name
    company := pyOrS args.company lead.company
    budget_min := pyOrI args.budget_min lead.budget_min
    budget_max := pyOrI args.budget_max lead.budget_max
    timeline := pyOrS args.timeline lead.timeline
    authority := pyOrS args.authority lead.authority
    project_summary := pyOrS args.project_summary lead.project_summary }

/-- Numeric value of the digit characters of a string, as Python's
`int(''.join(filter(str.isdigit, s)))`. -/
def natFromDigits (l : List Char) : Nat :=
  l.foldl (fun n c => 10 * n + (c.toNat - 48)) 0

/-- Digit extraction with Python's `or` fallback:
`int(''.join(filter(str.isdigit, s)) or default)`. -/
def digits_or (s : String) (dflt : Nat) : ℤ :=
  let ds := s.data.filter Char.isDigit
  if ds = [] then (dflt : ℤ) else (natFromDigits ds : ℤ)

/-- Whether `needle` occurs at the head of `hay`. -/
def chars_begin : List Char → List Char → Bool
  | [], _ => true
  | _ :: _, [] => false
  | c :: cs, d :: ds => c == d && chars_begin cs ds

/-- Whether `needle` occurs anywhere in `hay`: Python's `needle in hay`
on strings. -/
def chars_contain (needle hay : List Char) : Bool :=
  match hay with
  | [] => needle == []
  | _ :: t => chars_begin needle hay || chars_contain needle t

/-- The timeline-to-days heuristic of `save_lead`
(`tools_service.py` lines 208–215): weeks×7, months×30, default 60. -/
def timeline_to_days (timeline : Option String) : ℤ :=
  let timeline_str := (timeline.getD "").toLower
  if chars_contain "week".data timeline_str.data then
    7 * digits_or timeline_str 4
  else if chars_contain "month".data timeline_str.data then
    30 * digits_or timeline_str 3
  else 60

/-- The score chosen by `save_lead` (lines 204–223): the explicit `score`
argument when present (`is not None`, so even 0 counts), otherwise
`score_lead` over the merged lead with default clarity 70. -/
def compute_score (lead : LeadRec) (args : SaveArgs) : ℤ :=
  match args.score with
  | some s => s
  | none =>
    score_lead (lead.budget_max.getD 0) (timeline_to_days lead.timeline)
      (if pyTruthyS lead.authority then lead.authority.getD "" else "unknown")
      70

/-- The status chosen by `save_lead` (lines 225–229): the `status`
argument when truthy, otherwise derived from the score. -/
def status_of (args : SaveArgs) (score : ℤ) : String :=
  if pyTruthyS args.status then args.status.getD "" else status_from_score score

/-- Model of `db.query(Lead).filter(Lead.email == email).first()`. -/
def find_first_lead : List LeadRec → String → Option LeadRec
  | [], _ => none
  | l :: ls, e => if l.email == e then some l else find_first_lead ls e

/-- In-place update of the row `first()` returned: replace the first lead
whose email matches. -/
def set_first_lead : List LeadRec → String → LeadRec → List LeadRec
  | [], _, _ => []
  | l :: ls, e, x => if l.email == e then x :: ls else l :: set_first_lead ls e x

/-- The leads table plus the current conversation's `lead_id` link. -/
structure SaveState where
  leads : List LeadRec
  conversation_lead_id : Option Nat
deriving DecidableEq, Repr

/-- Result envelope of `save_lead`. -/
inductive SaveResult
  | ok (lead_id : Nat) (score : ℤ) (status : String) (email : String)
  | err (error : String)
deriving DecidableEq, Repr

/-- Embedding of `save_lead` (`tools_service.py` lines 166–254): reject a
falsy email; find-or-create the lead by email (a fresh row takes the next
id token, standing in for a fresh UUID); merge fields non-destructively;
compute score and status; persist (update in place or append); link the
conversation to the lead if not already linked.  The typed embedding has
no failing statement, so the `except` arm (rollback plus error envelope)
is unreachable. -/
def save_lead (args : SaveArgs) (st : SaveState) : SaveState × SaveResult :=
  match args.email with
  | none => (st, .err "Email is required")
  | some email =>
    if email = "" then (st, .err "Email is required")
    else
      let found := find_first_lead st.leads email
      let lead0 : LeadRec :=
        match found with
        | some l => l
        | none => { id := st.leads.length, email := email }
      let lead1 := merge_lead_fields lead0 args
      let score := compute_score lead1 args
      let status := status_of args score
      let lead2 := { lead1 with score := some score, status := status }
      let leads' :=
        match found with
        | some _ => set_first_lead st.leads email lead2
        | none => st.leads ++ [lead2]
      let conv' :=
        if st.conversation_lead_id ≠ some lead2.id then some lead2.id
        else st.conversation_lead_id
      ({ leads := leads', conversation_lead_id := conv' },
        .ok lead2.id score status email)

/-- The row as `save_lead` persists it: the merged fields plus the chosen
score and status (named form of the record built in lines 196–232). -/
def save_lead_record (args : SaveArgs) (lead0 : LeadRec) : LeadRec :=
  let lead1 := merge_lead_fields lead0 args
  let score := compute_score lead1 args
  { lead1 with score := some score, status := status_of args score }

/-- Number of leads stored under one email value. -/
def count_email (leads : List LeadRec) (e : String) : Nat :=
  (leads.filter (fun l => l.email == e)).length

/-- Claim C6's union of two disjoint provided-field sets, spec side
(string fields): the value of whichever call provided the field. -/
def union_provided_s (f1 f2 : Option String) : Option String :=
  if pyTruthyS f1 then f1 else if pyTruthyS f2 then f2 else none

/-- Claim C6's union of two disjoint provided-field sets, spec side
(integer fields). -/
def union_provided_i (f1 f2 : Option ℤ) : Option ℤ :=
  if pyTruthyI f1 then f1 else if pyTruthyI f2 then f2 else none

/-- Two argument mappings provide disjoint field sets (claim C6). -/
def disjoint_args (a1 a2 : SaveArgs) : Prop :=
  ¬(pyTruthyS a1.name ∧ pyTruthyS a2.name)
  ∧ ¬(pyTruthyS a1.company ∧ pyTruthyS a2.company)
  ∧ ¬(pyTruthyI a1.budget_min ∧ pyTruthyI a2.budget_min)
  ∧ ¬(pyTruthyI a1.budget_max ∧ pyTruthyI a2.budget_max)
  ∧ ¬(pyTruthyS a1.timeline ∧ pyTruthyS a2.timeline)
  ∧ ¬(pyTruthyS a1.authority ∧ pyTruthyS a2.authority)
  ∧ ¬(pyTruthyS a1.project_summary ∧ pyTruthyS a2.project_summary)

/-! ## Tool Dispatcher: `book_meeting` — `services/tools_service.py`

The Google Calendar client, the confirmation-email sender and the
credentials file are external collaborators (spec §6); they enter the
embedding as oracle parameters, so every theorem below quantifies over
all of their behaviours. -/

/-- Model of `s.replace("Z", "+00:00")` (`tools_service.py` lines 37–38),
written as structural recursion over the character list. -/
def replace_z_chars : List Char → List Char
  | [] => []
  | c :: cs =>
    if c == 'Z' then '+' :: '0' :: '0' :: ':' :: '0' :: '0' :: replace_z_chars cs
    else c :: replace_z_chars cs

/-- Model of `s.replace("Z", "+00:00")` on strings. -/
def replace_z (s : String) : String := ⟨replace_z_chars s.data⟩

/-- Numeric value of two digit characters. -/
def two_digit_val (a b : Char) : Nat :=
  10 * (a.toNat - 48) + (b.toNat - 48)

/-- Date part `YYYY-MM-DD` of an ISO timestamp. -/
def iso_date_ok (l : List Char) : Bool :=
  match l with
  | [y1, y2, y3, y4, '-', m1, m2, '-', d1, d2] =>
    y1.isDigit && y2.isDigit && y3.isDigit && y4.isDigit &&
    m1.isDigit && m2.isDigit && d1.isDigit && d2.isDigit &&
    decide (1 ≤ two_digit_val m1 m2) && decide (two_digit_val m1 m2 ≤ 12) &&
    decide (1 ≤ two_digit_val d1 d2) && decide (two_digit_val d1 d2 ≤ 31)
  | _ => false

/-- Time part `HH:MM` or `HH:MM:SS` of an ISO timestamp. -/
def iso_time_ok (l : List Char) : Bool :=
  match l with
  | [h1, h2, ':', n1, n2] =>
    h1.isDigit && h2.isDigit && n1.isDigit && n2.isDigit &&
    decide (two_digit_val h1 h2 ≤ 23) && decide (two_digit_val n1 n2 ≤ 59)
  | [h1, h2, ':', n1, n2, ':', s1, s2] =>
    h1.isDigit && h2.isDigit && n1.isDigit && n2.isDigit &&
    s1.isDigit && s2.isDigit &&
    decide (two_digit_val h1 h2 ≤ 23) && decide (two_digit_val n1 n2 ≤ 59) &&
    decide (two_digit_val s1 s2 ≤ 59)
  | _ => false

/-- Optional UTC-offset part `±HH:MM` of an ISO timestamp. -/
def iso_offset_ok (l : List Char) : Bool :=
  match l with
  | [] => true
  | [sign, h1, h2, ':', n1, n2] =>
    (sign == '+' || sign == '-') &&
    h1.isDigit && h2.isDigit && n1.isDigit && n2.isDigit &&
    decide (two_digit_val h1 h2 ≤ 23) && decide (two_digit_val n1 n2 ≤ 59)
  | _ => false

/-- Splits a time-of-day segment at the first `+` or `-` (the offset). -/
def break_offset : List Char → List Char × List Char
  | [] => ([], [])
  | c :: cs =>
    if c == '+' || c == '-' then ([], c :: cs)
    else
      let p := break_offset cs
      (c :: p.1, p.2)

/-- Modelled from the spec: `datetime.fromisoformat`, the stdlib
timestamp parser `book_meeting` validates with; the spec treats timestamp
parsing as an external pure-function dependency ("validates both are
parseable timestamps").  This model accepts `YYYY-MM-DD`, optionally
followed by a `T` or space separator, `HH:MM[:SS]` and an optional
`±HH:MM` offset — the fragment of the stdlib grammar this system
exchanges. -/
def iso_ok (s : String) : Bool :=
  match s.data with
  | y1 :: y2 :: y3 :: y4 :: '-' :: m1 :: m2 :: '-' :: d1 :: d2 :: rest =>
    iso_date_ok [y1, y2, y3, y4, '-', m1, m2, '-', d1, d2] &&
    (match rest with
     | [] => true
     | sep :: timerest =>
       (sep == 'T' || sep == ' ') &&
       (let p := break_offset timerest
        iso_time_ok p.1 && iso_offset_ok p.2))
  | _ => false

/-- State of the Google service-account credentials
(`tools_service.py` lines 43–55): path unset/absent, file unreadable, or
loadable. -/
inductive CredsState
  | missing
  | invalid (msg : String)
  | valid
deriving DecidableEq, Repr

/-- What the calendar collaborator returned for an insert. -/
structure CreatedEvent where
  id : String
  htmlLink : Option String := none
  hangoutLink : Option String := none
deriving DecidableEq, Repr

/-- The calendar collaborator's behaviour for the two insert attempts:
first with the conferencing request, then the retry without it. -/
structure CalendarOracle where
  insert_with_conference : Except String CreatedEvent
  insert_plain : Except String CreatedEvent

/-- The parsed argument mapping passed to `book_meeting`. -/
structure BookArgs where
  start_iso : Option String := none
  end_iso : Option String := none
  attendee_email : Option String := none
  attendee_name : Option String := none
  notes : Option String := none
deriving DecidableEq, Repr

/-- The distinct result envelopes `book_meeting` can return; the dynamic
error strings built from exception text are carried where the code
carries them. -/
inductive BookOutcome
  | missing_fields
  | invalid_datetime
  | invalid_credentials (msg : String)
  | simulated (start_iso end_iso attendee_email : String)
  | booked (event_id event_link : String) (meet_link : Option String)
      (email_sent : Bool)
  | calendar_failed (msg : String)
deriving DecidableEq, Repr

/-- The `ok` field of each envelope. -/
def BookOutcome.ok : BookOutcome → Bool
  | simulated .. => true
  | booked .. => true
  | _ => false

/-- The success tail of `book_meeting` (`tools_service.py` lines
116–144): extract links, attempt the best-effort confirmation email
(failure becomes `email_sent := false`, never an error), return the
success envelope.  The second component records that the email
collaborator was invoked. -/
def book_after_insert (ev : CreatedEvent)
    (email_result : Except String Unit) : BookOutcome × Bool :=
  let event_link := ev.htmlLink.getD ""
  let email_sent := match email_result with | .ok _ => true | .error _ => false
  (.booked ev.id event_link ev.hangoutLink email_sent, true)

/-- Embedding of `book_meeting` (`tools_service.py` lines 19–148):
falsy-field check, datetime validation on the `Z`-normalised strings,
simulation fallback without credentials, credentials-load failure,
insert-with-conference then retry-without, then the email tail.  The
boolean result records whether the email collaborator was ever called. -/
def book_meeting (creds : CredsState) (cal : CalendarOracle)
    (email_result : Except String Unit) (args : BookArgs) :
    BookOutcome × Bool :=
  if !(pyTruthyS args.start_iso) || !(pyTruthyS args.end_iso)
      || !(pyTruthyS args.attendee_email) then
    (.missing_fields, false)
  else
    let start_iso := args.start_iso.getD ""
    let end_iso := args.end_iso.getD ""
    let attendee_email := args.attendee_email.getD ""
    if !(iso_ok (replace_z start_iso)) then (.invalid_datetime, false)
    else if !(iso_ok (replace_z end_iso)) then (.invalid_datetime, false)
    else
      match creds with
      | .missing => (.simulated start_iso end_iso attendee_email, false)
      | .invalid msg => (.invalid_credentials msg, false)
      | .valid =>
        match cal.insert_with_conference with
        | .ok ev => book_after_insert ev email_result
        | .error _ =>
          match cal.insert_plain with
          | .ok ev => book_after_insert ev email_result
          | .error msg => (.calendar_failed msg, false)

/-! ## Tool Dispatcher: `notify_team` — `services/tools_service.py` -/

/-- The parsed argument mapping passed to `notify_team`. -/
structure NotifyArgs where
  message : Option String := none
  priority : Option String := none
deriving DecidableEq, Repr

/-- The Slack webhook collaborator's behaviour (HTTP status it would
answer with). -/
structure SlackOracle where
  status_code : Nat
deriving DecidableEq, Repr

/-- Result envelope of `notify_team`. -/
structure NotifyResult where
  ok : Bool
  priority : String
  timestamp : String
  error : Option String := none
deriving DecidableEq, Repr

/-- Embedding of `notify_team` (`tools_service.py` lines 257–349).  The
function's first executable statement is
`return {"ok": True, "priority": "high", "timestamp": datetime.now().isoformat()}`
(comment: "Just for demo/testing"), so the whole Slack-delivery block
below it — the message default, the webhook POST, the non-2xx check and
the exception handler — is unreachable.  The wall clock and the Slack
collaborator are oracle parameters; the executed path consults neither
the arguments nor the collaborator.  The boolean result records whether
the collaborator was invoked. -/
def notify_team (slack : SlackOracle) (now_iso : String)
    (args : NotifyArgs) : NotifyResult × Bool :=
  ({ ok := true, priority := "high", timestamp := now_iso }, false)

/-! ## Stream Orchestrator — `services/openai_service.py`

The provider stream is a list of chunks; JSON argument parsing
(`json.loads` with empty-mapping fallback) and tool execution are oracle
parameters of types `String → Option α` and `String → α → β`, so the
ordering theorems hold for every parser and dispatcher behaviour. -/

/-- One tool-call delta inside a streamed chunk: the positional `index`,
and the optional `id`, `function.name` and `function.arguments` fragment
(a delta whose `function` is absent has both of the latter `none`). -/
structure ToolCallDelta where
  index : Nat
  id : Option String := none
  name : Option String := none
  arguments : Option String := none
deriving DecidableEq, Repr

/-- One slot of the fragment accumulator, initialised
`{"id": "", "name": "", "arguments": ""}` (line 374). -/
structure ToolCallData where
  id : String := ""
  name : String := ""
  arguments : String := ""
deriving DecidableEq, Repr, Inhabited

/-- Slot growth (lines 373–374): `while len(tool_calls_data) <= idx:
append empty slot`. -/
def grow_slots (l : List ToolCallData) (idx : Nat) : List ToolCallData :=
  l ++ List.replicate (idx + 1 - l.length) ⟨"", "", ""⟩

/-- Merging one tool-call delta into the accumulator (lines 369–383):
grow to the index, overwrite `id` and `name` when the delta carries a
truthy value, append the truthy argument fragment to the slot's
argument string. -/
def apply_delta (l : List ToolCallData) (d : ToolCallDelta) : List ToolCallData :=
  let grown := grow_slots l d.index
  let entry := grown.getD d.index ⟨"", "", ""⟩
  grown.set d.index
    { id := if pyTruthyS d.id then d.id.getD "" else entry.id
      name := if pyTruthyS d.name then d.name.getD "" else entry.name
      arguments :=
        if pyTruthyS d.arguments then entry.arguments ++ d.arguments.getD ""
        else entry.arguments }

/-- The events the round emits to the caller; `α` is the parsed-argument
payload, `β` the dispatcher's result payload. -/
inductive StreamEvent (α β : Type) where
  | token (data : String)
  | done (data : String)
  | tool (name : String) (arguments : α)
  | tool_result (name : String) (result : β)
  | round_complete
deriving DecidableEq, Repr

/-- The delta of one provider chunk: optional text content, tool-call
deltas, as `chunk.choices[0].delta`. -/
structure ChunkDelta where
  content : Option String := none
  tool_calls : List ToolCallDelta := []
deriving DecidableEq, Repr

/-- One provider chunk: `none` models an empty `choices` list (skipped by
the loop); otherwise the delta plus `finish_reason`. -/
structure StreamChunk where
  choice : Option (ChunkDelta × Option String)
deriving DecidableEq, Repr

/-- State of the chunk loop: the `collected_text` buffer, the
`tool_calls_data` accumulator, and the events emitted so far. -/
structure LoopState (α β : Type) where
  collected_text : List String := []
  tool_calls_data : List ToolCallData := []
  events : List (StreamEvent α β) := []

/-- The chunk loop of `stream_chat_with_tools` (lines 355–387): skip
chunks without choices; emit a token event for truthy content and buffer
it; merge every tool-call delta; stop at a `stop` or `tool_calls` finish
reason. -/
def run_loop {α β : Type} : List StreamChunk → LoopState α β → LoopState α β
  | [], st => st
  | c :: rest, st =>
    match c.choice with
    | none => run_loop rest st
    | some (delta, finish) =>
      let st1 :=
        if pyTruthyS delta.content then
          { st with
            collected_text := st.collected_text ++ [delta.content.getD ""]
            events := st.events ++ [.token (delta.content.getD "")] }
        else st
      let st2 := { st1 with
        tool_calls_data := delta.tool_calls.foldl apply_delta st1.tool_calls_data }
      if finish == some "stop" || finish == some "tool_calls" then st2
      else run_loop rest st2

/-- One iteration of the dispatch loop (lines 399–443): skip a fragment
with a falsy name; otherwise parse the argument string (`json.loads`,
empty mapping on failure), emit the tool intent event, execute, emit the
tool_result event. -/
def dispatch_step {α β : Type} (parse : String → Option α) (empty_args : α)
    (exec : String → α → β) (evs : List (StreamEvent α β))
    (tc : ToolCallData) : List (StreamEvent α β) :=
  if tc.name == "" then evs
  else
    let args := (parse tc.arguments).getD empty_args
    evs ++ [.tool tc.name args, .tool_result tc.name (exec tc.name args)]

/-- The sequential dispatch phase (lines 398–443): the dispatch step over
every accumulated fragment in index order. -/
def dispatch_tools {α β : Type} (parse : String → Option α) (empty_args : α)
    (exec : String → α → β) (tools : List ToolCallData) :
    List (StreamEvent α β) :=
  tools.foldl (dispatch_step parse empty_args exec) []

/-- Concatenation of the buffered fragments: `"".join(collected_text)`. -/
def join_strings : List String → String
  | [] => ""
  | s :: rest => s ++ join_strings rest

/-- The per-round event stream of `stream_chat_with_tools`
(lines 354–443): the loop's token events, then — when the stripped
concatenated text is non-empty — one done event carrying it, then the
dispatch events. -/
def round_events {α β : Type} (parse : String → Option α) (empty_args : α)
    (exec : String → α → β) (chunks : List StreamChunk) :
    List (StreamEvent α β) :=
  let st := run_loop chunks ⟨[], [], []⟩
  let final_text := (join_strings st.collected_text).trim
  st.events
    ++ (if final_text != "" then [.done final_text] else [])
    ++ dispatch_tools parse empty_args exec st.tool_calls_data

/-- The WebSocket adapter (`routes_chat_ws.py` lines 31–37) relays every
orchestrator event of the round and then sends the terminal
round_complete. -/
def ws_round_events {α β : Type} (parse : String → Option α) (empty_args : α)
    (exec : String → α → β) (chunks : List StreamChunk) :
    List (StreamEvent α β) :=
  round_events parse empty_args exec chunks ++ [.round_complete]

/-- The tool-call deltas the loop consumes, in consumption order: all
deltas of each chunk with choices, up to and including the chunk that
carries the finish signal. -/
def deltas_of : List StreamChunk → List ToolCallDelta
  | [] => []
  | c :: rest =>
    match c.choice with
    | none => deltas_of rest
    | some (delta, finish) =>
      delta.tool_calls ++
        (if finish == some "stop" || finish == some "tool_calls" then []
         else deltas_of rest)

/-- The argument fragments addressed to slot `i`, in arrival order. -/
def arg_fragments (i : Nat) (ds : List ToolCallDelta) : List String :=
  ds.filterMap (fun d => if d.index = i then some (d.arguments.getD "") else none)

end AxAgent

namespace AxAgent

/-! ## Helper lemmas about `pyRound` -/

theorem pyRound_intCast (n : ℤ) : pyRound (n : ℚ) = n := by
  unfold pyRound
  simp

theorem le_pyRound {q : ℚ} {n : ℤ} (h : (n : ℚ) ≤ q) : n ≤ pyRound q := by
  have hf : n ≤ ⌊q⌋ := Int.le_floor.mpr h
  unfold pyRound
  split_ifs <;> omega

theorem pyRound_le {q : ℚ} {n : ℤ} (h : q ≤ (n : ℚ)) : pyRound q ≤ n := by
  have hf : ⌊q⌋ ≤ n := by
    have := Int.floor_le_floor h
    simpa using this
  have hfl : (⌊q⌋ : ℚ) ≤ q := Int.floor_le q
  unfold pyRound
  split_ifs with h1 h2 h3
  · exact hf
  · -- the fractional part is `> 1/2`, so `⌊q⌋ < q ≤ n`, hence `⌊q⌋ + 1 ≤ n`
    have hlt : (⌊q⌋ : ℚ) < q := by linarith
    have : ⌊q⌋ < n := by exact_mod_cast lt_of_lt_of_le hlt h
    omega
  · exact hf
  · -- the fractional part is exactly `1/2`, so again `⌊q⌋ < q ≤ n`
    have hr : q - (⌊q⌋ : ℚ) = 1/2 := le_antisymm (not_lt.mp h2) (not_lt.mp h1)
    have hlt : (⌊q⌋ : ℚ) < q := by linarith
    have : ⌊q⌋ < n := by exact_mod_cast lt_of_lt_of_le hlt h
    omega

theorem pyRound_mono {p q : ℚ} (h : p ≤ q) : pyRound p ≤ pyRound q := by
  rcases eq_or_lt_of_le (Int.floor_le_floor h) with hf | hf
  · -- same integer part: compare the fractional parts zone by zone
    have hr : p - (⌊p⌋ : ℚ) ≤ q - (⌊q⌋ : ℚ) := by
      rw [← hf]; linarith
    unfold pyRound
    rw [← hf]
    split_ifs <;> first | omega | linarith
  · -- the floors differ: `pyRound p ≤ ⌊p⌋ + 1 ≤ ⌊q⌋ ≤ pyRound q`
    have h1 : pyRound p ≤ ⌊p⌋ + 1 := by
      unfold pyRound
      split_ifs <;> omega
    have h2 : ⌊q⌋ ≤ pyRound q := by
      unfold pyRound
      split_ifs <;> omega
    omega

theorem pyRound_add_even (q : ℚ) (n : ℤ) (hn : n % 2 = 0) :
    pyRound (q + n) = pyRound q + n := by
  have hfl : ⌊q + (n : ℚ)⌋ = ⌊q⌋ + n := Int.floor_add_int q n
  unfold pyRound
  rw [hfl]
  push_cast
  have harg : q + (n : ℚ) - ((⌊q⌋ : ℚ) + (n : ℚ)) = q - (⌊q⌋ : ℚ) := by ring
  rw [harg]
  have hpar : (⌊q⌋ + n) % 2 = ⌊q⌋ % 2 := by omega
  rw [hpar]
  split_ifs <;> omega

theorem pyRound_eq_int {q : ℚ} {n : ℤ} (h : q = (n : ℚ)) : pyRound q = n :=
  h ▸ pyRound_intCast n

theorem toLower_dm : ("dm" : String).toLower = "dm" := by
  simp [String.toLower, String.map_eq]

/-! ## Lemmas about the scoring components -/

theorem score_lead_eq (b t : ℤ) (a : String) (c : ℤ) :
    score_lead b t a c =
      pyRound ((0.40 : ℚ) * budget_score_src b + rest_terms t a c) := by
  simp only [score_lead, budget_score_src, timeline_points, authority_points,
    clarity_clamped, rest_terms]
  ring_nf

theorem budget_score_src_bounds (b : ℤ) :
    0 ≤ budget_score_src b ∧ budget_score_src b ≤ 100 := by
  have h0 : (0 : ℤ) ≤ min (max b 0) 20000 :=
    le_min (le_max_right b 0) (by norm_num)
  have h1 : min (max b 0) 20000 ≤ 20000 := min_le_right _ _
  have hq0 : (0 : ℚ) ≤ ((min (max b 0) 20000 : ℤ) : ℚ) := by exact_mod_cast h0
  have hq1 : ((min (max b 0) 20000 : ℤ) : ℚ) ≤ 20000 := by exact_mod_cast h1
  constructor
  · refine le_pyRound ?_
    push_cast at hq0 ⊢
    linarith
  · refine pyRound_le ?_
    push_cast at hq1 ⊢
    linarith

theorem budget_score_src_mono {b b' : ℤ} (h : b ≤ b') :
    budget_score_src b ≤ budget_score_src b' := by
  have hm : min (max b 0) 20000 ≤ min (max b' 0) 20000 := by
    have := le_max_left b' 0
    omega
  refine pyRound_mono ?_
  have hq : ((min (max b 0) 20000 : ℤ) : ℚ) ≤ ((min (max b' 0) 20000 : ℤ) : ℚ) := by
    exact_mod_cast hm
  linarith

theorem budget_score_src_zero : budget_score_src 0 = 0 := by
  unfold budget_score_src
  refine pyRound_eq_int ?_
  norm_num

theorem timeline_points_bounds (t : ℤ) :
    30 ≤ timeline_points t ∧ timeline_points t ≤ 100 := by
  unfold timeline_points
  split_ifs <;> omega

theorem authority_points_bounds (a : String) :
    10 ≤ authority_points a ∧ authority_points a ≤ 100 := by
  simp only [authority_points]
  split_ifs <;> omega

theorem clarity_clamped_bounds (c : ℤ) :
    0 ≤ clarity_clamped c ∧ clarity_clamped c ≤ 100 := by
  unfold clarity_clamped
  omega

theorem rest_terms_bounds (t : ℤ) (a : String) (c : ℤ) :
    (0 : ℚ) ≤ rest_terms t a c ∧ rest_terms t a c ≤ 60 := by
  obtain ⟨ht1, ht2⟩ := timeline_points_bounds t
  obtain ⟨ha1, ha2⟩ := authority_points_bounds a
  obtain ⟨hc1, hc2⟩ := clarity_clamped_bounds c
  have ht1q : (30 : ℚ) ≤ (timeline_points t : ℚ) := by exact_mod_cast ht1
  have ht2q : (timeline_points t : ℚ) ≤ 100 := by exact_mod_cast ht2
  have ha1q : (10 : ℚ) ≤ (authority_points a : ℚ) := by exact_mod_cast ha1
  have ha2q : (authority_points a : ℚ) ≤ 100 := by exact_mod_cast ha2
  have hc1q : (0 : ℚ) ≤ (clarity_clamped c : ℚ) := by exact_mod_cast hc1
  have hc2q : (clarity_clamped c : ℚ) ≤ 100 := by exact_mod_cast hc2
  unfold rest_terms
  have h20 : (0.20 : ℚ) = 1/5 := by norm_num
  rw [h20]
  constructor <;> linarith

theorem budget_points_eq (bm : ℤ) : budget_points bm = budget_score_src bm := by
  unfold budget_points budget_score_src
  congr 1
  ring

theorem score_lead_mono_budget {b b' : ℤ} (t : ℤ) (a : String) (c : ℤ)
    (h : b ≤ b') : score_lead b t a c ≤ score_lead b' t a c := by
  rw [score_lead_eq b, score_lead_eq b']
  refine pyRound_mono ?_
  have hq : (budget_score_src b : ℚ) ≤ (budget_score_src b' : ℚ) := by
    exact_mod_cast budget_score_src_mono h
  have h40 : (0.40 : ℚ) = 2/5 := by norm_num
  rw [h40]
  linarith

/-! ## Claim theorems for the Scoring Engine -/

/-- C5: for every `budget_max`, `timeline_days`, `authority` and `clarity`
input, `score_lead` returns an integer in `[0, 100]`.  Purity and
determinism hold by construction of the embedding: `score_lead` is a plain
function of exactly these four arguments, with no state, time, randomness
or I/O parameter, so equal inputs give equal outputs. -/
theorem score_lead_in_range (b t : ℤ) (a : String) (c : ℤ) :
    0 ≤ score_lead b t a c ∧ score_lead b t a c ≤ 100 := by
  rw [score_lead_eq]
  obtain ⟨hb1, hb2⟩ := budget_score_src_bounds b
  obtain ⟨hr1, hr2⟩ := rest_terms_bounds t a c
  have hb1q : (0 : ℚ) ≤ (budget_score_src b : ℚ) := by exact_mod_cast hb1
  have hb2q : (budget_score_src b : ℚ) ≤ 100 := by exact_mod_cast hb2
  have h40 : (0.40 : ℚ) = 2/5 := by norm_num
  constructor
  · refine le_pyRound ?_
    rw [h40]
    push_cast
    linarith
  · refine pyRound_le ?_
    rw [h40]
    push_cast
    linarith

/-- C8: `status_from_score` partitions the integers with no gaps or
overlaps: hot iff `score ≥ 80`, warm iff `50 ≤ score < 80`, cold iff
`score < 50`. -/
theorem status_from_score_partitions (s : ℤ) :
    (status_from_score s = "hot" ↔ 80 ≤ s)
    ∧ (status_from_score s = "warm" ↔ 50 ≤ s ∧ s < 80)
    ∧ (status_from_score s = "cold" ↔ s < 50) := by
  unfold status_from_score
  split_ifs with h1 h2
  · exact ⟨⟨fun _ => h1, fun _ => rfl⟩,
      ⟨fun hh => absurd hh (by decide), fun hh => absurd h1 (by omega)⟩,
      ⟨fun hh => absurd hh (by decide), fun hh => absurd h1 (by omega)⟩⟩
  · exact ⟨⟨fun hh => absurd hh (by decide), fun hh => absurd hh h1⟩,
      ⟨fun _ => ⟨h2, by omega⟩, fun _ => rfl⟩,
      ⟨fun hh => absurd hh (by decide), fun hh => absurd h2 (by omega)⟩⟩
  · exact ⟨⟨fun hh => absurd hh (by decide), fun hh => absurd hh h1⟩,
      ⟨fun hh => absurd hh (by decide), fun hh => absurd hh.1 h2⟩,
      ⟨fun _ => by omega, fun _ => rfl⟩⟩

/-- C2 counterexample: 1000 and 2000 both lie in the lowest cell
(`< 3000`) of the claimed threshold partition, so a bucketed budget term
would score them identically; the code scores them 62 and 64.  The budget
term is therefore not a piecewise step function of those thresholds. -/
theorem budget_term_not_bucketed :
    score_lead 1000 30 "dm" 100 = 62 ∧ score_lead 2000 30 "dm" 100 = 64
      ∧ score_lead 1000 30 "dm" 100 ≠ score_lead 2000 30 "dm" 100 := by
  have e1 : score_lead 1000 30 "dm" 100 = 62 := by
    simp only [score_lead, toLower_dm]
    norm_num [show ("dm" : String) ≠ "" from by decide]
    rw [show pyRound (5 : ℚ) = (5 : ℤ) from pyRound_eq_int (by norm_num)]
    exact pyRound_eq_int (by push_cast; norm_num)
  have e2 : score_lead 2000 30 "dm" 100 = 64 := by
    simp only [score_lead, toLower_dm]
    norm_num [show ("dm" : String) ≠ "" from by decide]
    rw [show pyRound (10 : ℚ) = (10 : ℤ) from pyRound_eq_int (by norm_num)]
    exact pyRound_eq_int (by push_cast; norm_num)
  exact ⟨e1, e2, by rw [e1, e2]; omega⟩

/-- C2 amended: the budget term of `score_lead` is the rounded linear
normalisation of `budget_max` clamped to `[0, 20000]` (`budget_points`,
not a step function over fixed thresholds), entering the weighted sum
with weight 0.40; it is monotone in `budget_max` and contributes at most
40 points of the total score. -/
theorem budget_term_linear_weighted (b b' t : ℤ) (a : String) (c : ℤ)
    (hbb : b ≤ b') :
    (∃ rest : ℚ, ∀ bm : ℤ, score_lead bm t a c
        = pyRound ((0.40 : ℚ) * (budget_points bm : ℚ) + rest))
    ∧ (0 ≤ budget_points b ∧ budget_points b ≤ 100)
    ∧ score_lead b t a c ≤ score_lead b' t a c
    ∧ score_lead 0 t a c ≤ score_lead b t a c
    ∧ score_lead b t a c ≤ score_lead 0 t a c + 40 := by
  have h40 : (0.40 : ℚ) = 2/5 := by norm_num
  obtain ⟨hb1, hb2⟩ := budget_score_src_bounds b
  have hb1q : (0 : ℚ) ≤ (budget_score_src b : ℚ) := by exact_mod_cast hb1
  have hb2q : (budget_score_src b : ℚ) ≤ 100 := by exact_mod_cast hb2
  refine ⟨⟨rest_terms t a c, fun bm => ?_⟩, ?_, ?_, ?_, ?_⟩
  · rw [score_lead_eq, budget_points_eq]
  · rw [budget_points_eq]
    exact budget_score_src_bounds b
  · exact score_lead_mono_budget t a c hbb
  · rw [score_lead_eq 0, score_lead_eq b]
    refine pyRound_mono ?_
    rw [budget_score_src_zero, h40]
    push_cast
    linarith
  · rw [score_lead_eq 0, score_lead_eq b, budget_score_src_zero]
    rw [Int.cast_zero, mul_zero, zero_add]
    calc pyRound ((0.40 : ℚ) * (budget_score_src b : ℚ) + rest_terms t a c)
        ≤ pyRound (rest_terms t a c + 40) := by
          refine pyRound_mono ?_
          rw [h40]
          linarith
      _ = pyRound (rest_terms t a c) + 40 :=
          pyRound_add_even (rest_terms t a c) 40 (by norm_num)

/-- C2 amended, witness: the monotonicity conclusion instantiated at the
budgets 1000 ≤ 2000 used by the counterexample. -/
theorem budget_term_linear_weighted_witness :
    (1000 : ℤ) ≤ 2000
      ∧ score_lead 1000 30 "dm" 100 ≤ score_lead 2000 30 "dm" 100 :=
  ⟨by norm_num,
    (budget_term_linear_weighted 1000 2000 30 "dm" 100 (by norm_num)).2.2.1⟩

/-! ## Claim theorems for the Session Store -/

theorem push_message_cache_fold (ts : List Turn) (c : CacheEntry) :
    (ts.foldl (fun acc t => push_message_cache acc t.role t.content) c).msgs
      = c.msgs ++ ts := by
  induction ts generalizing c with
  | nil => simp
  | cons t ts ih =>
    rw [List.foldl_cons, ih]
    simp [push_message_cache]

/-- C3 counterexample: appending 51 turns to an empty cache through
`push_message` leaves all 51 entries — the append path never trims, so
the cache is not capped at the code's only trim bound (`trim_history`'s
default of 50), nor at any other N. -/
theorem push_message_cache_uncapped :
    (((List.replicate 51 (Turn.mk "user" "m")).foldl
        (fun acc t => push_message_cache acc t.role t.content)
        ⟨[], 0⟩).msgs).length = 51
    ∧ ¬ (((List.replicate 51 (Turn.mk "user" "m")).foldl
        (fun acc t => push_message_cache acc t.role t.content)
        ⟨[], 0⟩).msgs).length ≤ 50 := by
  have h := push_message_cache_fold (List.replicate 51 (Turn.mk "user" "m")) ⟨[], 0⟩
  rw [h]
  simp

/-- C3 amended: `push_message` appends the new turn at the tail of the
fast cache and refreshes the expiry window, but performs no trim, so
after any sequence of appends the cache holds every appended turn in
original relative order.  Trimming to the last N entries exists only as
the separate `trim_history` operation — which no caller of the append
path invokes — and that operation, for N > 0, keeps exactly the last
`min length N` entries as a suffix in original relative order. -/
theorem push_appends_trim_separate (c : CacheEntry) (ts : List Turn)
    (n : Nat) (hn : 0 < n) :
    (ts.foldl (fun acc t => push_message_cache acc t.role t.content) c).msgs
      = c.msgs ++ ts
    ∧ (ts.foldl (fun acc t => push_message_cache acc t.role t.content) c).msgs.length
      = c.msgs.length + ts.length
    ∧ (trim_history_cache n c).msgs = c.msgs.drop (c.msgs.length - n)
    ∧ (trim_history_cache n c).msgs.length = min c.msgs.length n
    ∧ c.msgs.take (c.msgs.length - n) ++ (trim_history_cache n c).msgs = c.msgs := by
  have hfold := push_message_cache_fold ts c
  have htrim : (trim_history_cache n c).msgs = c.msgs.drop (c.msgs.length - n) := by
    unfold trim_history_cache
    split_ifs with h1 h2
    · omega
    · rfl
    · have : c.msgs.length - n = 0 := by omega
      rw [this, List.drop_zero]
  refine ⟨hfold, by rw [hfold]; simp, htrim, ?_, ?_⟩
  · rw [htrim, List.length_drop]
    omega
  · rw [htrim, List.take_append_drop]

/-- C3 amended, witness: the trim conclusions instantiated at a concrete
three-turn cache trimmed to the last two entries. -/
theorem push_appends_trim_separate_witness :
    0 < 2
    ∧ (trim_history_cache 2
        ⟨[⟨"user", "a"⟩, ⟨"assistant", "b"⟩, ⟨"user", "c"⟩], 86400⟩).msgs
      = [⟨"assistant", "b"⟩, ⟨"user", "c"⟩] :=
  ⟨by decide, by
    have h := (push_appends_trim_separate
      ⟨[⟨"user", "a"⟩, ⟨"assistant", "b"⟩, ⟨"user", "c"⟩], 86400⟩ [] 2
      (by decide)).2.2.1
    simpa using h⟩

/-! ## Lemmas about `save_lead` -/

theorem merge_lead_fields_email (l : LeadRec) (a : SaveArgs) :
    (merge_lead_fields l a).email = l.email := rfl

theorem find_first_lead_email {leads : List LeadRec} {e : String} {l : LeadRec}
    (h : find_first_lead leads e = some l) : l.email = e := by
  induction leads with
  | nil => simp [find_first_lead] at h
  | cons x xs ih =>
    by_cases hx : x.email == e
    · simp [find_first_lead, hx] at h
      subst h
      exact eq_of_beq hx
    · simp [find_first_lead, hx] at h
      exact ih h

theorem count_email_cons (l : LeadRec) (ls : List LeadRec) (e : String) :
    count_email (l :: ls) e
      = (if l.email == e then 1 else 0) + count_email ls e := by
  by_cases h : l.email == e <;>
    simp [count_email, List.filter_cons, h, Nat.add_comm]

theorem count_email_append_one (ls : List LeadRec) (x : LeadRec) (e : String) :
    count_email (ls ++ [x]) e
      = count_email ls e + (if x.email == e then 1 else 0) := by
  by_cases h : x.email == e <;>
    simp [count_email, List.filter_append, List.filter_cons, h]

theorem find_first_lead_none_count {leads : List LeadRec} {e : String}
    (h : find_first_lead leads e = none) : count_email leads e = 0 := by
  induction leads with
  | nil => simp [count_email]
  | cons x xs ih =>
    by_cases hx : x.email == e
    · simp [find_first_lead, hx] at h
    · simp [find_first_lead, hx] at h
      rw [count_email_cons, ih h]
      simp [hx]

theorem set_first_lead_count (leads : List LeadRec) (e : String) (x : LeadRec)
    (hx : x.email = e) (e' : String) :
    count_email (set_first_lead leads e x) e' = count_email leads e' := by
  induction leads with
  | nil => rfl
  | cons l ls ih =>
    by_cases hl : l.email == e
    · have : l.email = x.email := by rw [hx]; exact eq_of_beq hl
      simp only [set_first_lead, hl, if_pos]
      rw [count_email_cons, count_email_cons, this]
    · simp only [set_first_lead, hl, if_neg, Bool.false_eq_true,
        not_false_iff]
      rw [count_email_cons, count_email_cons, ih]

theorem pyOrS_falsy {f : Option String} (h : pyTruthyS f = false)
    (o : Option String) : pyOrS f o = o := by
  simp [pyOrS, h]

theorem pyOrI_falsy {f : Option ℤ} (h : pyTruthyI f = false)
    (o : Option ℤ) : pyOrI f o = o := by
  simp [pyOrI, h]

theorem pyOrS_union {f1 f2 : Option String}
    (h : ¬(pyTruthyS f1 ∧ pyTruthyS f2)) :
    pyOrS f2 (pyOrS f1 none) = union_provided_s f1 f2 := by
  unfold pyOrS union_provided_s
  cases h1 : pyTruthyS f1 <;> cases h2 : pyTruthyS f2 <;>
    simp [h1, h2] at h ⊢

theorem pyOrI_union {f1 f2 : Option ℤ}
    (h : ¬(pyTruthyI f1 ∧ pyTruthyI f2)) :
    pyOrI f2 (pyOrI f1 none) = union_provided_i f1 f2 := by
  unfold pyOrI union_provided_i
  cases h1 : pyTruthyI f1 <;> cases h2 : pyTruthyI f2 <;>
    simp [h1, h2] at h ⊢

theorem save_lead_record_fields (a : SaveArgs) (lead0 : LeadRec) :
    (save_lead_record a lead0).email = lead0.email
    ∧ (save_lead_record a lead0).name = pyOrS a.name lead0.name
    ∧ (save_lead_record a lead0).company = pyOrS a.company lead0.company
    ∧ (save_lead_record a lead0).budget_min = pyOrI a.budget_min lead0.budget_min
    ∧ (save_lead_record a lead0).budget_max = pyOrI a.budget_max lead0.budget_max
    ∧ (save_lead_record a lead0).timeline = pyOrS a.timeline lead0.timeline
    ∧ (save_lead_record a lead0).authority = pyOrS a.authority lead0.authority
    ∧ (save_lead_record a lead0).project_summary
        = pyOrS a.project_summary lead0.project_summary :=
  ⟨rfl, rfl, rfl, rfl, rfl, rfl, rfl, rfl⟩

theorem save_lead_empty (a : SaveArgs) (e : String) (he : ¬ e = "")
    (ha : a.email = some e) :
    (save_lead a ⟨[], none⟩).1.leads
      = [save_lead_record a { id := 0, email := e }] := by
  simp [save_lead, save_lead_record, ha, he, find_first_lead]

theorem save_lead_update_head (a : SaveArgs) (e : String) (he : ¬ e = "")
    (ha : a.email = some e) (old : LeadRec) (rest : List LeadRec)
    (cid : Option Nat) (h0 : old.email = e) :
    (save_lead a ⟨old :: rest, cid⟩).1.leads
      = save_lead_record a old :: rest := by
  simp [save_lead, save_lead_record, ha, he, find_first_lead, set_first_lead, h0]

/-! ## Claim theorems for `save_lead` -/

/-- C6: `save_lead` keeps the at-most-one-lead-per-email invariant, and
two calls with the same email and disjoint provided-field sets, starting
from an empty store, leave a single lead record carrying the union of
both calls' provided fields (a provided field overwrites, an absent one
preserves the prior value). -/
theorem save_lead_upsert_union :
    (∀ (st : SaveState) (a : SaveArgs) (e' : String),
        count_email st.leads e' ≤ 1 →
        count_email (save_lead a st).1.leads e' ≤ 1)
    ∧ (∀ (a1 a2 : SaveArgs) (e : String), e ≠ "" →
        a1.email = some e → a2.email = some e → disjoint_args a1 a2 →
        ∃ l : LeadRec,
          (save_lead a2 (save_lead a1 ⟨[], none⟩).1).1.leads = [l]
          ∧ l.email = e
          ∧ l.name = union_provided_s a1.name a2.name
          ∧ l.company = union_provided_s a1.company a2.company
          ∧ l.budget_min = union_provided_i a1.budget_min a2.budget_min
          ∧ l.budget_max = union_provided_i a1.budget_max a2.budget_max
          ∧ l.timeline = union_provided_s a1.timeline a2.timeline
          ∧ l.authority = union_provided_s a1.authority a2.authority
          ∧ l.project_summary
              = union_provided_s a1.project_summary a2.project_summary) := by
  constructor
  · intro st a e' h
    rcases hae : a.email with _ | email
    · simpa [save_lead, hae] using h
    · by_cases he : email = ""
      · simpa [save_lead, hae, he] using h
      · rcases hf : find_first_lead st.leads email with _ | l0
        · have hleads : (save_lead a st).1.leads
              = st.leads
                ++ [save_lead_record a { id := st.leads.length, email := email }] := by
            simp [save_lead, save_lead_record, hae, he, hf]
          rw [hleads, count_email_append_one]
          cases hbe : ((save_lead_record a
              { id := st.leads.length, email := email }).email == e')
          · simpa [hbe] using h
          · have hrec : (save_lead_record a
                { id := st.leads.length, email := email }).email = email := rfl
            have hee : email = e' := by
              rw [← hrec]; exact eq_of_beq hbe
            rw [← hee, find_first_lead_none_count hf]
            simp [hbe]
        · have hleads : (save_lead a st).1.leads
              = set_first_lead st.leads email (save_lead_record a l0) := by
            simp [save_lead, save_lead_record, hae, he, hf]
          have hx : (save_lead_record a l0).email = email := by
            have := find_first_lead_email hf
            rw [← this]; rfl
          rw [hleads, set_first_lead_count _ _ _ hx]
          exact h
  · intro a1 a2 e he h1 h2 hd
    obtain ⟨hdn, hdc, hdbm, hdbx, hdt, hda, hdp⟩ := hd
    have he' : ¬ e = "" := he
    have s1 := save_lead_empty a1 e he' h1
    have hrec1 : (save_lead_record a1 { id := 0, email := e }).email = e := rfl
    have hst1 : (save_lead a1 ⟨[], none⟩).1
        = SaveState.mk [save_lead_record a1 { id := 0, email := e }]
            ((save_lead a1 ⟨[], none⟩).1.conversation_lead_id) := by
      rw [← s1]
    have s2 := save_lead_update_head a2 e he' h2
      (save_lead_record a1 { id := 0, email := e }) []
      ((save_lead a1 ⟨[], none⟩).1.conversation_lead_id) hrec1
    refine ⟨save_lead_record a2 (save_lead_record a1 { id := 0, email := e }),
      ?_, rfl, ?_, ?_, ?_, ?_, ?_, ?_, ?_⟩
    · rw [hst1]
      exact s2
    · exact pyOrS_union hdn
    · exact pyOrS_union hdc
    · exact pyOrI_union hdbm
    · exact pyOrI_union hdbx
    · exact pyOrS_union hdt
    · exact pyOrS_union hda
    · exact pyOrS_union hdp

/-- C6 witness: two concrete disjoint saves under `john@x.com` leave one
record holding the union of the provided fields. -/
theorem save_lead_upsert_union_witness :
    ("john@x.com" : String) ≠ ""
    ∧ ∃ l : LeadRec,
        (save_lead { email := some "john@x.com", company := some "Acme" }
          (save_lead
            { email := some "john@x.com", name := some "John",
              budget_max := some 10000 }
            ⟨[], none⟩).1).1.leads = [l]
        ∧ l.name = some "John"
        ∧ l.company = some "Acme"
        ∧ l.budget_max = some 10000 := by
  refine ⟨by decide, ?_⟩
  obtain ⟨l, hl, _, hn, hc, _, hbx, _, _, _⟩ :=
    save_lead_upsert_union.2
      { email := some "john@x.com", name := some "John",
        budget_max := some 10000 }
      { email := some "john@x.com", company := some "Acme" }
      "john@x.com" (by decide) rfl rfl (by unfold disjoint_args; decide)
  refine ⟨l, hl, ?_, ?_, ?_⟩
  · rw [hn]; decide
  · rw [hc]; decide
  · rw [hbx]; decide

/-- C10: in `save_lead`, a field present in the argument mapping but bound
to a falsy value — numeric 0 (`budget_max`), the empty string (`name`) or
null (`company`) — is treated as absent: the stored lead keeps its prior
value for that field. -/
theorem save_lead_falsy_preserved (old : LeadRec) (rest : List LeadRec)
    (cid : Option Nat) (a : SaveArgs) (e : String) (he : ¬ e = "")
    (h0 : old.email = e) (ha : a.email = some e)
    (hbm : a.budget_max = some 0) (hnm : a.name = some "")
    (hcp : a.company = none) :
    ∃ l : LeadRec, (save_lead a ⟨old :: rest, cid⟩).1.leads = l :: rest
      ∧ l.budget_max = old.budget_max
      ∧ l.name = old.name
      ∧ l.company = old.company := by
  refine ⟨save_lead_record a old,
    save_lead_update_head a e he ha old rest cid h0, ?_, ?_, ?_⟩
  · rw [(save_lead_record_fields a old).2.2.2.2.1]
    refine pyOrI_falsy ?_ _
    rw [hbm]; decide
  · rw [(save_lead_record_fields a old).2.1]
    refine pyOrS_falsy ?_ _
    rw [hnm]; decide
  · rw [(save_lead_record_fields a old).2.2.1]
    refine pyOrS_falsy ?_ _
    rw [hcp]; decide

/-- C10 witness: re-saving `john@x.com` with `budget_max = 0`, an empty
name and no company leaves the stored 5000 budget, name and company
unchanged. -/
theorem save_lead_falsy_preserved_witness :
    ¬ ("john@x.com" : String) = ""
    ∧ ∃ l : LeadRec,
        (save_lead
          ⟨some "", some "john@x.com", none, none, some 0, none, none, none,
            none, none⟩
          ⟨[⟨0, "john@x.com", some "John", some "Acme", none, some 5000,
            none, none, none, none, "new"⟩], none⟩).1.leads
          = [l]
        ∧ l.budget_max = some 5000
        ∧ l.name = some "John"
        ∧ l.company = some "Acme" := by
  refine ⟨by decide, ?_⟩
  obtain ⟨l, hl, hb, hn, hc⟩ := save_lead_falsy_preserved
    ⟨0, "john@x.com", some "John", some "Acme", none, some 5000,
      none, none, none, none, "new"⟩ [] none
    ⟨some "", some "john@x.com", none, none, some 0, none, none, none,
      none, none⟩
    "john@x.com" (by decide) rfl rfl rfl rfl rfl
  exact ⟨l, hl, by rw [hb], by rw [hn], by rw [hc]⟩

/-! ## Claim theorems for `book_meeting` and `notify_team` -/

/-- C7 counterexample: the argument mapping with `start_iso` bound to the
empty string has `start_iso` present but unparseable, yet `book_meeting`
answers with the missing-fields envelope, not the invalid-datetime one —
the falsy-field check fires first. -/
theorem book_meeting_empty_start_not_invalid_datetime :
    iso_ok (replace_z "") = false
    ∧ book_meeting .missing ⟨.error "down", .error "down"⟩ (.ok ())
        ⟨some "", some "2025-10-23T15:00:00+05:00", some "john@x.com",
          none, none⟩
      = (.missing_fields, false)
    ∧ BookOutcome.missing_fields ≠ BookOutcome.invalid_datetime :=
  ⟨by decide, by decide, by decide⟩

/-- C7 amended: whenever `start_iso`, `end_iso` and `attendee_email` are
all present and non-empty and `start_iso` is not a parseable timestamp,
`book_meeting` returns the invalid-datetime envelope with ok false, and —
for every credential state and every calendar/email collaborator
behaviour — never invokes the email collaborator. -/
theorem book_meeting_invalid_start (creds : CredsState)
    (cal : CalendarOracle) (em : Except String Unit) (a : BookArgs)
    (s : String) (hs : a.start_iso = some s) (hs0 : s ≠ "")
    (hend : pyTruthyS a.end_iso = true)
    (hatt : pyTruthyS a.attendee_email = true)
    (hbad : iso_ok (replace_z s) = false) :
    book_meeting creds cal em a = (.invalid_datetime, false)
    ∧ (book_meeting creds cal em a).1.ok = false
    ∧ (book_meeting creds cal em a).2 = false := by
  have h1 : pyTruthyS a.start_iso = true := by
    rw [hs]
    simp [pyTruthyS, hs0]
  have hgd : a.start_iso.getD "" = s := by rw [hs]; rfl
  have hmain : book_meeting creds cal em a = (.invalid_datetime, false) := by
    simp [book_meeting, h1, hend, hatt, hgd, hbad]
  exact ⟨hmain, by rw [hmain]; rfl, by rw [hmain]⟩

/-- C7 amended, witness: the unparseable start `"not-a-date"` with valid
end timestamp and attendee, under loaded credentials and succeeding
collaborators, yields exactly the invalid-datetime failure with no email
call. -/
theorem book_meeting_invalid_start_witness :
    (some "not-a-date" = some "not-a-date")
    ∧ ("not-a-date" : String) ≠ ""
    ∧ iso_ok (replace_z "not-a-date") = false
    ∧ book_meeting .valid
        ⟨.ok ⟨"e1", some "L", none⟩, .ok ⟨"e1", some "L", none⟩⟩ (.ok ())
        ⟨some "not-a-date", some "2025-10-23T15:00:00+05:00",
          some "john@x.com", none, none⟩
      = (.invalid_datetime, false) :=
  ⟨rfl, by decide, by decide,
    (book_meeting_invalid_start .valid
      ⟨.ok ⟨"e1", some "L", none⟩, .ok ⟨"e1", some "L", none⟩⟩ (.ok ())
      ⟨some "not-a-date", some "2025-10-23T15:00:00+05:00",
        some "john@x.com", none, none⟩
      "not-a-date" rfl (by decide) (by decide) (by decide) (by decide)).1⟩

/-- C4 (code bug): because of the demo-stub early return, `notify_team`
returns ok true with no error for every argument mapping — even one with
no message — and for every Slack collaborator state, never invoking the
collaborator; the documented requires-message and
ok-false-on-non-2xx-or-transport-failure behaviour is dead code. -/
theorem notify_team_stub_always_ok (slack : SlackOracle) (now_iso : String)
    (args : NotifyArgs) :
    (notify_team slack now_iso args).1.ok = true
    ∧ (notify_team slack now_iso args).1.error = none
    ∧ (notify_team slack now_iso args).2 = false
    ∧ ∀ (slack' : SlackOracle) (args' : NotifyArgs),
        notify_team slack now_iso args = notify_team slack' now_iso args' :=
  ⟨rfl, rfl, rfl, fun _ _ => rfl⟩

/-! ## Lemmas about the Stream Orchestrator -/

theorem grow_slots_length (l : List ToolCallData) (idx : Nat) :
    (grow_slots l idx).length = max l.length (idx + 1) := by
  simp [grow_slots]
  omega

theorem grow_slots_getD (l : List ToolCallData) (idx j : Nat) :
    (grow_slots l idx).getD j ⟨"", "", ""⟩ = l.getD j ⟨"", "", ""⟩ := by
  simp only [grow_slots, List.getD_eq_getElem?_getD, List.getElem?_append]
  split_ifs with h
  · rfl
  · rw [List.getElem?_eq_none (by omega : l.length ≤ j)]
    simp [List.getElem?_replicate]
    split_ifs <;> rfl

theorem index_lt_grow (l : List ToolCallData) (idx : Nat) :
    idx < (grow_slots l idx).length := by
  rw [grow_slots_length]
  omega

theorem apply_delta_getD_self (l : List ToolCallData) (d : ToolCallDelta) :
    (apply_delta l d).getD d.index ⟨"", "", ""⟩
      = { id := if pyTruthyS d.id then d.id.getD ""
            else (l.getD d.index ⟨"", "", ""⟩).id
          name := if pyTruthyS d.name then d.name.getD ""
            else (l.getD d.index ⟨"", "", ""⟩).name
          arguments :=
            if pyTruthyS d.arguments then
              (l.getD d.index ⟨"", "", ""⟩).arguments ++ d.arguments.getD ""
            else (l.getD d.index ⟨"", "", ""⟩).arguments } := by
  have hlt := index_lt_grow l d.index
  have hG : getElem (grow_slots l d.index) d.index hlt
      = l.getD d.index ⟨"", "", ""⟩ := by
    rw [← grow_slots_getD l d.index d.index, List.getD_eq_getElem?_getD,
      List.getElem?_eq_getElem hlt]
    rfl
  simp only [apply_delta, List.getD_eq_getElem?_getD, List.getElem?_set_self']
  rw [List.getElem?_eq_getElem hlt]
  simp only [Option.map_some, Option.getD_some, Function.const]
  rw [hG]
  simp only [List.getD_eq_getElem?_getD]

theorem apply_delta_getD_other (l : List ToolCallData) (d : ToolCallDelta)
    (j : Nat) (hj : j ≠ d.index) :
    (apply_delta l d).getD j ⟨"", "", ""⟩ = l.getD j ⟨"", "", ""⟩ := by
  simp only [apply_delta, List.getD_eq_getElem?_getD]
  rw [List.getElem?_set_ne (by omega)]
  rw [← List.getD_eq_getElem?_getD, ← List.getD_eq_getElem?_getD]
  exact grow_slots_getD l d.index j

theorem pyTruthyS_false_getD {o : Option String} (h : pyTruthyS o = false) :
    o.getD "" = "" := by
  simpa [pyTruthyS] using h

theorem apply_delta_args_self (l : List ToolCallData) (d : ToolCallDelta) :
    ((apply_delta l d).getD d.index ⟨"", "", ""⟩).arguments
      = (l.getD d.index ⟨"", "", ""⟩).arguments ++ d.arguments.getD "" := by
  rw [apply_delta_getD_self]
  cases h : pyTruthyS d.arguments
  · simp [h, pyTruthyS_false_getD h]
  · simp [h]

theorem foldl_apply_delta_args (ds : List ToolCallDelta)
    (l : List ToolCallData) (i : Nat) :
    ((ds.foldl apply_delta l).getD i ⟨"", "", ""⟩).arguments
      = (l.getD i ⟨"", "", ""⟩).arguments
        ++ join_strings (arg_fragments i ds) := by
  induction ds generalizing l with
  | nil => simp [arg_fragments, join_strings]
  | cons d ds ih =>
    rw [List.foldl_cons, ih]
    by_cases h : d.index = i
    · subst h
      rw [apply_delta_args_self]
      simp [arg_fragments, join_strings, String.append_assoc]
    · rw [apply_delta_getD_other l d i (fun hh => h hh.symm)]
      simp [arg_fragments, join_strings, h]

theorem run_loop_tools {α β : Type} (chunks : List StreamChunk)
    (st : LoopState α β) :
    (run_loop chunks st).tool_calls_data
      = (deltas_of chunks).foldl apply_delta st.tool_calls_data := by
  induction chunks generalizing st with
  | nil => simp [run_loop, deltas_of]
  | cons c rest ih =>
    rcases hc : c.choice with _ | ⟨delta, finish⟩
    · simp [run_loop, deltas_of, hc, ih]
    · by_cases hf : (finish == some "stop" || finish == some "tool_calls") = true
      · cases hp : pyTruthyS delta.content <;>
          simp [run_loop, deltas_of, hc, hf, hp, List.foldl_append]
      · rw [Bool.not_eq_true] at hf
        cases hp : pyTruthyS delta.content <;>
          simp [run_loop, deltas_of, hc, hf, hp, List.foldl_append, ih]

theorem run_loop_events {α β : Type} (chunks : List StreamChunk)
    (st : LoopState α β) :
    ∃ texts : List String,
      (run_loop chunks st).events
          = st.events ++ texts.map StreamEvent.token
      ∧ (run_loop chunks st).collected_text = st.collected_text ++ texts := by
  induction chunks generalizing st with
  | nil => exact ⟨[], by simp [run_loop], by simp [run_loop]⟩
  | cons c rest ih =>
    rcases hc : c.choice with _ | ⟨delta, finish⟩
    · obtain ⟨texts, h1, h2⟩ := ih st
      exact ⟨texts, by simpa [run_loop, hc] using h1,
        by simpa [run_loop, hc] using h2⟩
    · by_cases hf : (finish == some "stop" || finish == some "tool_calls") = true
      · cases hp : pyTruthyS delta.content
        · exact ⟨[], by simp [run_loop, hc, hf, hp],
            by simp [run_loop, hc, hf, hp]⟩
        · exact ⟨[delta.content.getD ""], by simp [run_loop, hc, hf, hp],
            by simp [run_loop, hc, hf, hp]⟩
      · rw [Bool.not_eq_true] at hf
        cases hp : pyTruthyS delta.content
        · obtain ⟨texts, h1, h2⟩ := ih
            ⟨st.collected_text,
              delta.tool_calls.foldl apply_delta st.tool_calls_data, st.events⟩
          refine ⟨texts, ?_, ?_⟩
          · simpa [run_loop, hc, hf, hp] using h1
          · simpa [run_loop, hc, hf, hp] using h2
        · obtain ⟨texts, h1, h2⟩ := ih
            ⟨st.collected_text ++ [delta.content.getD ""],
              delta.tool_calls.foldl apply_delta st.tool_calls_data,
              st.events ++ [.token (delta.content.getD "")]⟩
          refine ⟨delta.content.getD "" :: texts, ?_, ?_⟩
          · simp [run_loop, hc, hf, hp, h1, List.append_assoc]
          · simp [run_loop, hc, hf, hp, h2, List.append_assoc]

theorem dispatch_step_skip {α β : Type} (parse : String → Option α)
    (empty_args : α) (exec : String → α → β)
    (evs : List (StreamEvent α β)) (tc : ToolCallData)
    (h : (tc.name == "") = true) :
    dispatch_step parse empty_args exec evs tc = evs := by
  simp [dispatch_step, h]

theorem dispatch_step_emit {α β : Type} (parse : String → Option α)
    (empty_args : α) (exec : String → α → β)
    (evs : List (StreamEvent α β)) (tc : ToolCallData)
    (h : (tc.name == "") = false) :
    dispatch_step parse empty_args exec evs tc
      = evs ++ [.tool tc.name ((parse tc.arguments).getD empty_args),
          .tool_result tc.name
            (exec tc.name ((parse tc.arguments).getD empty_args))] := by
  simp [dispatch_step, h]

theorem dispatch_tools_aux {α β : Type} (parse : String → Option α)
    (empty_args : α) (exec : String → α → β) (tools : List ToolCallData)
    (acc : List (StreamEvent α β)) :
    ∃ pairs : List (String × α × β),
      tools.foldl (dispatch_step parse empty_args exec) acc
        = acc ++ pairs.bind (fun p =>
            [StreamEvent.tool p.1 p.2.1, StreamEvent.tool_result p.1 p.2.2]) := by
  induction tools generalizing acc with
  | nil => exact ⟨[], by simp⟩
  | cons tc rest ih =>
    rw [List.foldl_cons]
    by_cases hn : (tc.name == "") = true
    · obtain ⟨pairs, hp⟩ := ih acc
      rw [dispatch_step_skip parse empty_args exec acc tc hn]
      exact ⟨pairs, hp⟩
    · rw [Bool.not_eq_true] at hn
      rw [dispatch_step_emit parse empty_args exec acc tc hn]
      obtain ⟨pairs, hp⟩ := ih
        (acc ++ [.tool tc.name ((parse tc.arguments).getD empty_args),
          .tool_result tc.name
            (exec tc.name ((parse tc.arguments).getD empty_args))])
      refine ⟨(tc.name, (parse tc.arguments).getD empty_args,
        exec tc.name ((parse tc.arguments).getD empty_args)) :: pairs, ?_⟩
      rw [hp]
      simp [List.append_assoc]

theorem dispatch_tools_shape {α β : Type} (parse : String → Option α)
    (empty_args : α) (exec : String → α → β) (tools : List ToolCallData) :
    ∃ pairs : List (String × α × β),
      dispatch_tools parse empty_args exec tools
        = pairs.bind (fun p =>
            [StreamEvent.tool p.1 p.2.1, StreamEvent.tool_result p.1 p.2.2]) := by
  obtain ⟨pairs, hp⟩ := dispatch_tools_aux parse empty_args exec tools []
  exact ⟨pairs, by simpa [dispatch_tools] using hp⟩

/-! ## Claim theorems for the Stream Orchestrator -/

/-- C9: in every streamed round — for every chunk sequence, every
argument parser and every dispatcher behaviour — the emitted event
sequence decomposes as token events (one per buffered fragment, in
arrival order), then an optional done event carrying the stripped
concatenation of exactly those fragments, then tool / tool_result pairs
for the dispatched calls, then the terminal round_complete; in
particular no tool or tool_result event ever precedes the end of token
and done emission. -/
theorem round_event_order {α β : Type} (parse : String → Option α)
    (empty_args : α) (exec : String → α → β) (chunks : List StreamChunk) :
    ∃ (texts : List String) (pairs : List (String × α × β)),
      ws_round_events parse empty_args exec chunks
        = texts.map StreamEvent.token
          ++ (if (join_strings texts).trim != "" then
                [StreamEvent.done ((join_strings texts).trim)] else [])
          ++ pairs.bind (fun p =>
              [StreamEvent.tool p.1 p.2.1, StreamEvent.tool_result p.1 p.2.2])
          ++ [StreamEvent.round_complete] := by
  obtain ⟨texts, h1, h2⟩ := run_loop_events chunks (⟨[], [], []⟩ : LoopState α β)
  obtain ⟨pairs, hp⟩ := dispatch_tools_shape parse empty_args exec
    (run_loop chunks (⟨[], [], []⟩ : LoopState α β)).tool_calls_data
  refine ⟨texts, pairs, ?_⟩
  unfold ws_round_events round_events
  simp only [h1, h2, hp]
  simp [List.append_assoc]

/-- C1: the fragment accumulator of a streaming round grows to
accommodate the highest index seen (`max length (index+1)`); a delta
carrying an id or name overwrites that field of its indexed slot; an
argument fragment is appended — never overwritten — to its slot while
every other slot is untouched; and therefore the accumulator the loop
hands to dispatch at the finish signal holds, at every index, the
concatenation of all argument fragments addressed to that index in
arrival order, whatever order the indices arrived in. -/
theorem tool_fragment_accumulation :
    (∀ (l : List ToolCallData) (d : ToolCallDelta),
        (apply_delta l d).length = max l.length (d.index + 1))
    ∧ (∀ (l : List ToolCallData) (d : ToolCallDelta) (s : String),
        d.id = some s → s ≠ "" →
        ((apply_delta l d).getD d.index ⟨"", "", ""⟩).id = s)
    ∧ (∀ (l : List ToolCallData) (d : ToolCallDelta) (s : String),
        d.name = some s → s ≠ "" →
        ((apply_delta l d).getD d.index ⟨"", "", ""⟩).name = s)
    ∧ (∀ (l : List ToolCallData) (d : ToolCallDelta),
        ((apply_delta l d).getD d.index ⟨"", "", ""⟩).arguments
          = (l.getD d.index ⟨"", "", ""⟩).arguments ++ d.arguments.getD "")
    ∧ (∀ (l : List ToolCallData) (d : ToolCallDelta) (j : Nat), j ≠ d.index →
        (apply_delta l d).getD j ⟨"", "", ""⟩ = l.getD j ⟨"", "", ""⟩)
    ∧ (∀ (ds : List ToolCallDelta) (i : Nat),
        ((ds.foldl apply_delta []).getD i ⟨"", "", ""⟩).arguments
          = join_strings (arg_fragments i ds))
    ∧ (∀ (α β : Type) (chunks : List StreamChunk),
        (run_loop chunks (⟨[], [], []⟩ : LoopState α β)).tool_calls_data
          = (deltas_of chunks).foldl apply_delta []) := by
  refine ⟨?_, ?_, ?_, apply_delta_args_self, apply_delta_getD_other, ?_, ?_⟩
  · intro l d
    simp [apply_delta, grow_slots_length, grow_slots]
    omega
  · intro l d s hid hs
    rw [apply_delta_getD_self]
    simp [pyTruthyS, hid, hs]
  · intro l d s hnm hs
    rw [apply_delta_getD_self]
    simp [pyTruthyS, hnm, hs]
  · intro ds i
    rw [foldl_apply_delta_args]
    rfl
  · intro α β chunks
    exact run_loop_tools chunks _

/-- C1 witness: an out-of-index-order delta sequence — index 1 first,
then index 0, then argument continuations for each — reconstructs both
tool calls with their fully concatenated argument strings, and a single
delta at index 1 grows the list to two slots, overwriting id and name
only at its own slot. -/
theorem tool_fragment_accumulation_witness :
    (apply_delta [] ⟨1, some "idB", some "book_meeting", some "xy"⟩).length = 2
    ∧ ((apply_delta [] ⟨1, some "idB", some "book_meeting", some "xy"⟩).getD 1
        ⟨"", "", ""⟩).id = "idB"
    ∧ (apply_delta [] ⟨1, some "idB", some "book_meeting", some "xy"⟩).getD 0
        ⟨"", "", ""⟩ = ⟨"", "", ""⟩
    ∧ ((([⟨1, some "idB", some "book_meeting", some "xy"⟩,
          ⟨0, some "idA", some "save_lead", some "ab"⟩,
          ⟨1, none, none, some "zw"⟩,
          ⟨0, none, none, some "cd"⟩] : List ToolCallDelta).foldl
            apply_delta []).getD 1 ⟨"", "", ""⟩).arguments = "xyzw"
    ∧ ((([⟨1, some "idB", some "book_meeting", some "xy"⟩,
          ⟨0, some "idA", some "save_lead", some "ab"⟩,
          ⟨1, none, none, some "zw"⟩,
          ⟨0, none, none, some "cd"⟩] : List ToolCallDelta).foldl
            apply_delta []).getD 0 ⟨"", "", ""⟩).arguments = "abcd" := by
  refine ⟨?_, ?_, ?_, ?_, ?_⟩
  · exact tool_fragment_accumulation.1 [] ⟨1, some "idB", some "book_meeting", some "xy"⟩
  · exact tool_fragment_accumulation.2.1 []
      ⟨1, some "idB", some "book_meeting", some "xy"⟩ "idB" rfl (by decide)
  · have h := tool_fragment_accumulation.2.2.2.2.1 []
      ⟨1, some "idB", some "book_meeting", some "xy"⟩ 0 (by decide)
    simpa using h
  · have h := tool_fragment_accumulation.2.2.2.2.2.1
      [⟨1, some "idB", some "book_meeting", some "xy"⟩,
        ⟨0, some "idA", some "save_lead", some "ab"⟩,
        ⟨1, none, none, some "zw"⟩,
        ⟨0, none, none, some "cd"⟩] 1
    rw [h]
    decide
  · have h := tool_fragment_accumulation.2.2.2.2.2.1
      [⟨1, some "idB", some "book_meeting", some "xy"⟩,
        ⟨0, some "idA", some "save_lead", some "ab"⟩,
        ⟨1, none, none, some "zw"⟩,
        ⟨0, none, none, some "cd"⟩] 0
    rw [h]
    decide

end AxAgent
